import Mathlib

set_option allowUnsafeReducibility true

attribute [semireducible] Rat.mul Rat.add Rat.div Rat.sub Rat.neg Rat.inv Rat.blt

/-! Verification of the AutoML plan-based column transformation engine.

Shallow embedding of the pandas-backed dataset operations found in
`backend.py`, `missing_values.py`, `outliers.py`, `correlation_utils.py`
and `data_utils.py`.  A dataframe is modelled column-major: an ordered
list of named, typed columns whose cells are either a missing marker,
a numeric value, or text.  Exact rational arithmetic stands in for the
float arithmetic of the source. -/

/-- A single cell of a column: missing marker (NaN), numeric value, or text. -/
inductive Cell where
  | na : Cell
  | num : ℚ → Cell
  | str : String → Cell
deriving DecidableEq, Repr

/-- Column dtype as pandas reports it: numeric (float64/int64) or
object/category (both source checks `['object', 'category']` are modelled
by the single `object` case). -/
inductive Dtype where
  | numeric : Dtype
  | object : Dtype
deriving DecidableEq, Repr

/-- A named pandas column with its dtype and cells. -/
structure Col where
  name : String
  dtype : Dtype
  cells : List Cell
deriving DecidableEq, Repr

/-- A dataframe, column-major: ordered list of columns. -/
abbrev Df := List Col

/-- Default column used with `List.getD` (never observed in the claims). -/
def defaultCol : Col := { name := "", dtype := Dtype.numeric, cells := [] }

/-- Column names in order (pandas `df.columns`). -/
def names (df : Df) : List String := df.map (fun c => c.name)

/-- Lookup a column by name (pandas `df[col]`, first match; the source
assumes unique column names). -/
def dfFind (df : Df) (n : String) : Option Col := df.find? (fun c => c.name == n)

/-- Number of rows, pandas `len(df)`: length of the first column
(all columns of a well-formed dataframe have equal length). -/
def nRows (df : Df) : ℕ := (df.headD defaultCol).cells.length

/-- Numeric values of a column with missing entries removed
(pandas `Series.dropna()` on a numeric column). -/
def numsOf (cs : List Cell) : List ℚ :=
  cs.filterMap (fun x => match x with
    | Cell.num q => some q
    | _ => none)

/-- Count of missing cells (pandas `isnull().sum()` for one column). -/
def countNa (cs : List Cell) : ℕ := (cs.filter (fun x => x == Cell.na)).length

/-- Non-missing cells (pandas dropna, as used by `nunique` and `mode`). -/
def nonNaCells (cs : List Cell) : List Cell := cs.filter (fun x => !(x == Cell.na))

/-- Distinct non-missing values (pandas `Series.nunique()`). -/
def nuniqueC (cs : List Cell) : ℕ := (nonNaCells cs).dedup.length

/-- Floor of a rational, computed on its normal form (kernel-reducible). -/
def floorQ (q : ℚ) : ℤ := q.num.fdiv (q.den : ℤ)

/-- Models Python `round(x, 2)` on the exact rational value, as
`⌊x*100 + 1/2⌋ / 100` (round half up).  Python rounds half to even on
floats; the difference can only show at exact half-centesimal boundaries,
which never arise in the claims checked here. -/
def round2 (q : ℚ) : ℚ := ((floorQ (q * 100 + 1 / 2) : ℤ) : ℚ) / 100

/-- Per-column descriptor row as built by `data_utils.get_df_info`. -/
structure Descriptor where
  id : ℕ
  column_name : String
  dtype : Dtype
  percentage_unique : ℚ
  percentage_missing : ℚ
deriving DecidableEq, Repr

/-- Embeds `data_utils.get_df_info`: the descriptor table pairs
`range(1, len(df.columns) + 1)` with the columns in current left-to-right
order and carries rounded unique/missing percentages. -/
def get_df_info (df : Df) : List Descriptor :=
  ((List.range' 1 df.length).zip df).map (fun p =>
    { id := p.1
      column_name := p.2.name
      dtype := p.2.dtype
      percentage_unique := round2 (((nuniqueC p.2.cells : ℚ) / (nRows df : ℚ)) * 100)
      percentage_missing := round2 (((countNa p.2.cells : ℚ) / (nRows df : ℚ)) * 100) })

/-- C3: the recomputed column descriptors assign ids forming the contiguous
range 1..N (N = current number of columns) in current left-to-right column
order, with no gaps and no repeats — for every dataset, hence in particular
for the dataset resulting from any mutation. -/
theorem get_df_info_ids_contiguous (df : Df) :
    (get_df_info df).map (fun d => d.id) = List.range' 1 df.length
      ∧ ((get_df_info df).map (fun d => d.id)).Nodup
      ∧ (∀ k, k ∈ (get_df_info df).map (fun d => d.id) ↔ 1 ≤ k ∧ k ≤ df.length) := by
  have hlen : (List.range' 1 df.length).length ≤ df.length := by
    simp [List.length_range']
  have h1 : (get_df_info df).map (fun d => d.id) = List.range' 1 df.length := by
    unfold get_df_info
    rw [List.map_map]
    have : ((fun d : Descriptor => d.id) ∘ fun p : ℕ × Col =>
        ({ id := p.1
           column_name := p.2.name
           dtype := p.2.dtype
           percentage_unique := round2 (((nuniqueC p.2.cells : ℚ) / (nRows df : ℚ)) * 100)
           percentage_missing := round2 (((countNa p.2.cells : ℚ) / (nRows df : ℚ)) * 100) }
          : Descriptor)) = Prod.fst := by
      funext p
      rfl
    rw [this, List.map_fst_zip _ _ hlen]
  refine ⟨h1, ?_, ?_⟩
  · rw [h1]
    exact List.nodup_range' 1 df.length
  · intro k
    rw [h1, List.mem_range'_1]
    omega

/-! Statistics helpers used by the suggestion and apply paths. -/

/-- Mean of the numeric values of a column; `none` models the NaN pandas
returns on an all-missing column (`Series.mean()` skips NaN). -/
def meanOpt (cs : List Cell) : Option ℚ :=
  let vs := numsOf cs
  if vs.length = 0 then none else some ((vs.foldl (fun a b => a + b) 0) / (vs.length : ℚ))

/-- Linear-interpolation quantile on the sorted non-missing values, the
pandas `Series.quantile(p)` default; `none` models NaN on an empty series. -/
def quantileQ (xs : List ℚ) (p : ℚ) : Option ℚ :=
  match xs with
  | [] => none
  | _ :: _ =>
    let s := List.insertionSort (fun a b => a ≤ b) xs
    let n := s.length
    let h : ℚ := ((n : ℚ) - 1) * p
    let k : ℕ := Int.toNat (floorQ h)
    let g : ℚ := h - (k : ℚ)
    some (s.getD k 0 + g * (s.getD (min (k + 1) (n - 1)) 0 - s.getD k 0))

/-- Median as pandas computes it (`Series.median()` = linear quantile at 0.5,
averaging the two middle values for even length). -/
def medianOpt (cs : List Cell) : Option ℚ := quantileQ (numsOf cs) (1 / 2)

/-- Lexicographic order on character lists by code point, the string order
underlying the pandas sort of mode candidates. -/
def charListLe : List Char → List Char → Bool
  | [], _ => true
  | _ :: _, [] => false
  | a :: as, b :: bs =>
    if a.toNat < b.toNat then true
    else if b.toNat < a.toNat then false
    else charListLe as bs

/-- Value order used to pick `mode()[0]`: pandas sorts the most frequent
values ascending and takes the first.  Numbers sort before text (ties
across types never arise in the source's single-dtype columns). -/
def cellLe (a b : Cell) : Bool :=
  match a, b with
  | Cell.na, _ => true
  | _, Cell.na => false
  | Cell.num p, Cell.num q => p ≤ q
  | Cell.num _, Cell.str _ => true
  | Cell.str _, Cell.num _ => false
  | Cell.str s, Cell.str t => charListLe s.data t.data

/-- Models `Series.mode()` followed by `.iloc[0]`: the smallest among the
most frequent non-missing values; `none` when the mode series is empty
(all cells missing). -/
def modeOpt (cs : List Cell) : Option Cell :=
  let vs := nonNaCells cs
  match vs with
  | [] => none
  | v :: _ =>
    let maxCnt := (vs.map (fun x => vs.count x)).foldl max 0
    let cands := vs.filter (fun x => vs.count x == maxCnt)
    some (cands.foldl (fun m x => if cellLe x m then x else m) (cands.headD v))

/-- Fill missing cells with a numeric value; the `none` case models both the
CLI guard `if not np.isnan(val)` and the fact that `fillna(NaN)` is a no-op. -/
def fillWithNum (v : Option ℚ) (cs : List Cell) : List Cell :=
  match v with
  | none => cs
  | some q => cs.map (fun x => if x = Cell.na then Cell.num q else x)

/-- Fill missing cells with the column mean (`fillna(df[col].mean())`). -/
def fillCellsMean (cs : List Cell) : List Cell := fillWithNum (meanOpt cs) cs

/-- Fill missing cells with the column median (`fillna(df[col].median())`). -/
def fillCellsMedian (cs : List Cell) : List Cell := fillWithNum (medianOpt cs) cs

/-- Fill missing cells with `mode()[0]`, guarded by `if not mode_val.empty`. -/
def fillCellsMode (cs : List Cell) : List Cell :=
  match modeOpt cs with
  | none => cs
  | some v => cs.map (fun x => if x = Cell.na then v else x)

/-- Rewrite the cells of every column named `n` (pandas `df[n] = ...`). -/
def mapColCells (df : Df) (n : String) (f : List Cell → List Cell) : Df :=
  df.map (fun c => if c.name = n then { c with cells := f c.cells } else c)

/-- Drop the column named `n` (pandas `df.drop(columns=[n])`). -/
def dropCol (df : Df) (n : String) : Df := df.filter (fun c => !(c.name == n))

/-- Replace the column of the same name by `c2` (pandas `df[col] = series`). -/
def dfSet (df : Df) (c2 : Col) : Df :=
  df.map (fun c => if c.name = c2.name then c2 else c)

/-! Numeric coercion, modelling `pd.to_numeric(series, errors='raise')`
restricted to decimal literals (sign, digits, optional fraction part). -/

/-- Parse a nonempty digit string. -/
def parseDigits (cs : List Char) : Option ℕ :=
  if cs.isEmpty then none
  else
    cs.foldl (fun acc c =>
      match acc with
      | none => none
      | some n => if c.isDigit then some (n * 10 + (c.toNat - 48)) else none)
      (some 0)

/-- Parse an unsigned decimal literal, with optional fraction part. -/
def parseUnsigned (cs : List Char) : Option ℚ :=
  match cs.splitOn '.' with
  | [a] => (parseDigits a).map (fun n => (n : ℚ))
  | [a, b] =>
    match parseDigits a, parseDigits b with
    | some n, some f => some ((n : ℚ) + (f : ℚ) / ((10 : ℚ) ^ b.length))
    | _, _ => none
  | _ => none

/-- Parse a signed decimal literal. -/
def parseRat (s : String) : Option ℚ :=
  match s.toList with
  | '-' :: rest => (parseUnsigned rest).map (fun q => -q)
  | cs => parseUnsigned cs

/-- Models `pd.to_numeric(df[col], errors='raise')`: every text cell must
parse as a number, missing stays missing; on success the column dtype
becomes numeric, on any failure the whole conversion raises (`none`) and
the column is untouched. -/
def toNumericCol (c : Col) : Option Col :=
  (c.cells.mapM (fun x =>
    match x with
    | Cell.na => some Cell.na
    | Cell.num q => some (Cell.num q)
    | Cell.str s => (parseRat s).map Cell.num)).map
    (fun cs => { name := c.name, dtype := Dtype.numeric, cells := cs })

/-! The missing-values apply endpoint (`backend.api_missing_apply`). -/

/-- Dispatch of one resolved action on the column named `n`, the
`if action == ...` chain of `api_missing_apply` (and of the CLI
`apply_actions`): mean/median/mode fill, drop_col, anything else no-op. -/
def fillStep (a : String) (df : Df) (n : String) : Df :=
  if a = "mean" then mapColCells df n fillCellsMean
  else if a = "median" then mapColCells df n fillCellsMedian
  else if a = "mode" then mapColCells df n fillCellsMode
  else if a = "drop_col" then dropCol df n
  else df

/-- One plan entry of `api_missing_apply`: ids outside `[1, len(cols)]` are
skipped (`continue`); the id is resolved against the `cols` list captured
at batch start; a missing column models the uncaught `KeyError` of
`df[col]` (`none` aborts the request); mean/median on a categorical column
first attempts the numeric coercion and on failure skips the entry. -/
def applyEntry (cols : List String) (a : String) (df : Df) (cid : ℕ) : Option Df :=
  if 1 ≤ cid ∧ cid ≤ cols.length then
    let cname := cols.getD (cid - 1) ""
    match dfFind df cname with
    | none => none
    | some c =>
      if (a = "mean" ∨ a = "median") ∧ c.dtype = Dtype.object then
        match toNumericCol c with
        | none => some df
        | some c2 => some (fillStep a (dfSet df c2) cname)
      else some (fillStep a df cname)
  else some df

/-- Sequential execution of the flattened plan entries. -/
def processEntries (cols : List String) (df : Df) (es : List (String × ℕ)) : Option Df :=
  es.foldlM (fun d e => applyEntry cols e.1 d e.2) df

/-- Flatten a plan (ordered action → id-list mapping) into entries, the
iteration order of the two nested loops in `api_missing_apply`. -/
def flattenPlan (plan : List (String × List ℕ)) : List (String × ℕ) :=
  (plan.map (fun e => e.2.map (fun i => (e.1, i)))).flatten

/-- Embeds `backend.api_missing_apply`: capture `cols = list(df.columns)`
once, then run every plan entry against it. -/
def api_missing_apply (df : Df) (plan : List (String × List ℕ)) : Option Df :=
  processEntries (names df) df (flattenPlan plan)

/-! Helper lemmas about name lookup and no-op fills. -/

/-- With unique column names, looking a member column up by its own name
finds exactly it. -/
theorem dfFind_eq_some_of_mem (df : Df) (c : Col)
    (hnd : (names df).Nodup) (hc : c ∈ df) : dfFind df c.name = some c := by
  induction df with
  | nil => simp at hc
  | cons hd t ih =>
    have hnd1 : hd.name ∉ names t ∧ (names t).Nodup := by
      have : (hd.name :: names t).Nodup := by simpa [names] using hnd
      exact ⟨(List.nodup_cons.mp this).1, (List.nodup_cons.mp this).2⟩
    rcases List.mem_cons.mp hc with rfl | hmem
    · unfold dfFind
      rw [List.find?_cons_of_pos t (by simp)]
    · have hne : ¬((fun x : Col => x.name == c.name) hd = true) := by
        intro he
        apply hnd1.1
        have hnn : hd.name = c.name := eq_of_beq he
        rw [hnn]
        exact List.mem_map_of_mem (fun x => x.name) hmem
      unfold dfFind
      rw [List.find?_cons_of_neg t hne]
      exact ih hnd1.2 hmem

/-- The k-th captured column name is the name of the k-th column. -/
theorem names_getD (df : Df) (k : ℕ) (hk : k < df.length) :
    (names df).getD k "" = (df.getD k defaultCol).name := by
  have hk2 : k < (names df).length := by simpa [names] using hk
  rw [List.getD_eq_getElem (names df) _ hk2, List.getD_eq_getElem df _ hk]
  simp [names]

/-- Columns obtained through `getD` at an in-range index are members. -/
theorem getD_mem_of_lt (df : Df) (k : ℕ) (hk : k < df.length) :
    df.getD k defaultCol ∈ df := by
  rw [List.getD_eq_getElem df _ hk]
  exact List.getElem_mem hk

/-- Rewriting the cells of column `n` with a function that fixes them is the
identity on the dataframe. -/
theorem mapColCells_id (df : Df) (n : String) (f : List Cell → List Cell)
    (h : ∀ col ∈ df, col.name = n → f col.cells = col.cells) :
    mapColCells df n f = df := by
  unfold mapColCells
  conv_rhs => rw [← List.map_id df]
  apply List.map_congr_left
  intro c hc
  by_cases hn : c.name = n
  · rw [if_pos hn, h c hc hn]
    cases c
    rfl
  · rw [if_neg hn]
    rfl

/-- Unfolding one step of the entry fold (definitional). -/
theorem processEntries_cons (cols : List String) (df : Df) (e : String × ℕ)
    (es : List (String × ℕ)) :
    processEntries cols df (e :: es) =
      (applyEntry cols e.1 df e.2).bind (fun d => processEntries cols d es) := rfl

/-- C7: when a `mean`/`median` action targets a categorical column and the
numeric coercion fails, that plan entry leaves the dataframe (hence the
column) completely unchanged and is skipped, and the batch continues with
the remaining entries. -/
theorem missing_coercion_failure_skips (cols : List String) (df : Df) (a : String)
    (cid : ℕ) (c : Col) (rest : List (String × ℕ))
    (ha : a = "mean" ∨ a = "median")
    (hcid : 1 ≤ cid ∧ cid ≤ cols.length)
    (hfind : dfFind df (cols.getD (cid - 1) "") = some c)
    (hcat : c.dtype = Dtype.object)
    (hcoerce : toNumericCol c = none) :
    processEntries cols df ((a, cid) :: rest) = processEntries cols df rest := by
  have hstep : applyEntry cols a df cid = some df := by
    simp only [applyEntry]
    rw [if_pos hcid]
    split
    next heq =>
      rw [hfind] at heq
      simp at heq
    next c2 heq =>
      rw [hfind] at heq
      injection heq with heq2
      subst heq2
      rw [if_pos (show (a = "mean" ∨ a = "median") ∧ c.dtype = Dtype.object from
        ⟨ha, hcat⟩)]
      split
      next => rfl
      next c3 heq3 =>
        rw [hcoerce] at heq3
        simp at heq3
  simp [processEntries, List.foldlM_cons, hstep]

/-- C7 witness: a categorical column holding the non-numeric text value x,
targeted by `mean`, is skipped and the one-entry batch finishes unchanged. -/
theorem missing_coercion_failure_skips_witness :
    processEntries [("A")]
        [{ name := "A", dtype := Dtype.object, cells := [Cell.str ("x"), Cell.na] }]
        [(("mean"), 1)] =
      some [{ name := "A", dtype := Dtype.object, cells := [Cell.str ("x"), Cell.na] }] := by
  have h := missing_coercion_failure_skips [("A")]
    [{ name := "A", dtype := Dtype.object, cells := [Cell.str ("x"), Cell.na] }]
    ("mean") 1
    { name := "A", dtype := Dtype.object, cells := [Cell.str ("x"), Cell.na] } []
    (Or.inl rfl) (by decide) (by decide) (by decide) (by decide)
  exact h.trans (by decide)

/-- C8: plan entries whose column id lies outside the current valid range
[1, N] are silently filtered out; every in-range entry is still applied and
an out-of-range id never aborts the batch — applying a plan equals applying
its in-range restriction. -/
theorem api_missing_apply_filters_invalid_ids (df : Df) (plan : List (String × List ℕ)) :
    api_missing_apply df plan =
      processEntries (names df) df
        ((flattenPlan plan).filter
          (fun e => decide (1 ≤ e.2 ∧ e.2 ≤ (names df).length))) := by
  unfold api_missing_apply
  generalize names df = cols
  generalize flattenPlan plan = es
  induction es generalizing df with
  | nil => rfl
  | cons e es ih =>
    by_cases h : 1 ≤ e.2 ∧ e.2 ≤ cols.length
    · rw [List.filter_cons_of_pos (by simpa using h), processEntries_cons,
        processEntries_cons]
      cases happ : applyEntry cols e.1 df e.2 with
      | none => rfl
      | some d2 => exact ih d2
    · have hstep : applyEntry cols e.1 df e.2 = some df := by
        simp only [applyEntry]
        rw [if_neg h]
      rw [List.filter_cons_of_neg (by simpa using h), processEntries_cons, hstep]
      exact ih df

/-- C10: applying a fill whose statistic is undefined — `mean`/`median` on a
column whose non-missing values are empty (statistic NaN), or `mode` on a
column with an empty mode series — leaves the column unchanged, raises
nothing, and the batch continues with the next entries.  An all-missing
column realises all three cases at once. -/
theorem missing_fill_undefined_stat_skips (cols : List String) (df : Df) (a : String)
    (cid : ℕ) (c : Col) (rest : List (String × ℕ))
    (ha : a = "mean" ∨ a = "median" ∨ a = "mode")
    (hcid : 1 ≤ cid ∧ cid ≤ cols.length)
    (hnd : (names df).Nodup)
    (hfind : dfFind df (cols.getD (cid - 1) "") = some c)
    (hnum : c.dtype = Dtype.numeric)
    (hna : ∀ x ∈ c.cells, x = Cell.na) :
    processEntries cols df ((a, cid) :: rest) = processEntries cols df rest := by
  have huniq : ∀ col ∈ df, col.name = cols.getD (cid - 1) "" → col = c := by
    intro col hcol hn
    have h1 : dfFind df col.name = some col := dfFind_eq_some_of_mem df col hnd hcol
    rw [hn, hfind] at h1
    injection h1 with h2
    exact h2.symm
  have hfix : ∀ col ∈ df, col.name = cols.getD (cid - 1) "" →
      fillCellsMean col.cells = col.cells ∧ fillCellsMedian col.cells = col.cells ∧
        fillCellsMode col.cells = col.cells := by
    intro col hcol hn
    have hcc : col = c := huniq col hcol hn
    subst hcc
    have hnums : numsOf col.cells = [] := by
      rw [numsOf, List.filterMap_eq_nil_iff]
      intro x hx
      rw [hna x hx]
    have hnon : nonNaCells col.cells = [] := by
      rw [nonNaCells, List.filter_eq_nil_iff]
      intro x hx
      rw [hna x hx]
      simp
    refine ⟨?_, ?_, ?_⟩
    · simp [fillCellsMean, meanOpt, hnums, fillWithNum]
    · simp [fillCellsMedian, medianOpt, hnums, quantileQ, fillWithNum]
    · simp [fillCellsMode, modeOpt, hnon]
  have hstep : applyEntry cols a df cid = some df := by
    simp only [applyEntry]
    rw [if_pos hcid]
    split
    next heq =>
      rw [hfind] at heq
      simp at heq
    next c2 heq =>
      rw [hfind] at heq
      injection heq with heq2
      subst heq2
      have hcond : ¬((a = "mean" ∨ a = "median") ∧ c.dtype = Dtype.object) := by
        rintro ⟨-, hobj⟩
        rw [hnum] at hobj
        cases hobj
      rw [if_neg hcond]
      congr 1
      rcases ha with h | h | h <;> subst h
      · have hs : fillStep ("mean") df (cols.getD (cid - 1) "") =
            mapColCells df (cols.getD (cid - 1) "") fillCellsMean := by
          simp [fillStep]
        rw [hs]
        exact mapColCells_id df _ _ (fun col hcol hn => (hfix col hcol hn).1)
      · have hs : fillStep ("median") df (cols.getD (cid - 1) "") =
            mapColCells df (cols.getD (cid - 1) "") fillCellsMedian := by
          simp [fillStep]
        rw [hs]
        exact mapColCells_id df _ _ (fun col hcol hn => (hfix col hcol hn).2.1)
      · have hs : fillStep ("mode") df (cols.getD (cid - 1) "") =
            mapColCells df (cols.getD (cid - 1) "") fillCellsMode := by
          simp [fillStep]
        rw [hs]
        exact mapColCells_id df _ _ (fun col hcol hn => (hfix col hcol hn).2.2)
  rw [processEntries_cons, hstep, Option.some_bind]

/-- C10 witness: a `mean` entry on an all-missing numeric column is skipped
and the one-entry batch returns the dataframe unchanged. -/
theorem missing_fill_undefined_stat_skips_witness :
    processEntries [("M")]
        [{ name := "M", dtype := Dtype.numeric, cells := [Cell.na, Cell.na] }]
        [(("mean"), 1)] =
      some [{ name := "M", dtype := Dtype.numeric, cells := [Cell.na, Cell.na] }] := by
  have h := missing_fill_undefined_stat_skips [("M")]
    [{ name := "M", dtype := Dtype.numeric, cells := [Cell.na, Cell.na] }]
    ("mean") 1
    { name := "M", dtype := Dtype.numeric, cells := [Cell.na, Cell.na] } []
    (Or.inl rfl) (by decide) (by decide) (by decide) (by decide) (by decide)
  exact h.trans (by decide)

/-- C9: within one apply batch, every plan id is resolved against the column
names captured when the batch began; a `drop_col` earlier in the batch does
not shift the meaning of a later id — dropping column i and then filling
column j by mode targets the column at pre-batch position j, not the column
that now sits at position j. -/
theorem missing_apply_ids_prebatch (df : Df) (i j : ℕ)
    (hnd : (names df).Nodup)
    (hi1 : 1 ≤ i) (hi2 : i ≤ df.length)
    (hj1 : 1 ≤ j) (hj2 : j ≤ df.length)
    (hij : i ≠ j) :
    api_missing_apply df [(("drop_col"), [i]), (("mode"), [j])] =
      some (mapColCells (dropCol df ((names df).getD (i - 1) ""))
        ((names df).getD (j - 1) "") fillCellsMode) := by
  have hleni : i - 1 < df.length := by omega
  have hlenj : j - 1 < df.length := by omega
  have hlenn : (names df).length = df.length := by simp [names]
  have hni : (names df).getD (i - 1) "" = (df.getD (i - 1) defaultCol).name :=
    names_getD df (i - 1) hleni
  have hnj : (names df).getD (j - 1) "" = (df.getD (j - 1) defaultCol).name :=
    names_getD df (j - 1) hlenj
  have hmi : df.getD (i - 1) defaultCol ∈ df := getD_mem_of_lt df (i - 1) hleni
  have hmj : df.getD (j - 1) defaultCol ∈ df := getD_mem_of_lt df (j - 1) hlenj
  have hfindi : dfFind df ((names df).getD (i - 1) "") =
      some (df.getD (i - 1) defaultCol) := by
    rw [hni]
    exact dfFind_eq_some_of_mem df _ hnd hmi
  have hnames_ne : (df.getD (j - 1) defaultCol).name ≠ (df.getD (i - 1) defaultCol).name := by
    intro he
    have h1 : (names df).getD (j - 1) "" = (names df).getD (i - 1) "" := by
      rw [hni, hnj, he]
    rw [List.getD_eq_getElem (names df) _ (by omega : j - 1 < (names df).length),
      List.getD_eq_getElem (names df) _ (by omega : i - 1 < (names df).length)] at h1
    have h2 := (List.Nodup.getElem_inj_iff hnd).mp h1
    omega
  have hstep1 : applyEntry (names df) ("drop_col") df i =
      some (dropCol df ((names df).getD (i - 1) "")) := by
    simp only [applyEntry]
    rw [if_pos (show 1 ≤ i ∧ i ≤ (names df).length from ⟨hi1, by omega⟩)]
    split
    next heq =>
      rw [hfindi] at heq
      simp at heq
    next c2 heq =>
      rw [if_neg (show ¬((("drop_col") = "mean" ∨ ("drop_col") = "median") ∧
        c2.dtype = Dtype.object) by simp)]
      congr 1
  have hmem2 : df.getD (j - 1) defaultCol ∈ dropCol df ((names df).getD (i - 1) "") := by
    rw [dropCol, List.mem_filter]
    refine ⟨hmj, ?_⟩
    rw [hni]
    simpa using hnames_ne
  have hsub : (names (dropCol df ((names df).getD (i - 1) ""))).Sublist (names df) := by
    unfold names dropCol
    exact List.Sublist.map (fun c => c.name) (List.filter_sublist df)
  have hnd2 : (names (dropCol df ((names df).getD (i - 1) ""))).Nodup :=
    hnd.sublist hsub
  have hfindj : dfFind (dropCol df ((names df).getD (i - 1) ""))
      ((names df).getD (j - 1) "") = some (df.getD (j - 1) defaultCol) := by
    rw [hnj]
    exact dfFind_eq_some_of_mem _ _ hnd2 hmem2
  have hstep2 : applyEntry (names df) ("mode") (dropCol df ((names df).getD (i - 1) "")) j =
      some (mapColCells (dropCol df ((names df).getD (i - 1) ""))
        ((names df).getD (j - 1) "") fillCellsMode) := by
    simp only [applyEntry]
    rw [if_pos (show 1 ≤ j ∧ j ≤ (names df).length from ⟨hj1, by omega⟩)]
    split
    next heq =>
      rw [hfindj] at heq
      simp at heq
    next c2 heq =>
      rw [if_neg (show ¬((("mode") = "mean" ∨ ("mode") = "median") ∧
        c2.dtype = Dtype.object) by simp)]
      congr 1
  show processEntries (names df) df [(("drop_col"), i), (("mode"), j)] = _
  rw [processEntries_cons, hstep1, Option.some_bind, processEntries_cons, hstep2,
    Option.some_bind]
  rfl

/-- C9 witness: in a three-column dataframe, dropping id 1 and then
mode-filling id 2 fills the column that was second before the batch, not the
column that is second after the drop. -/
theorem missing_apply_ids_prebatch_witness :
    api_missing_apply
        [{ name := "A", dtype := Dtype.numeric, cells := [Cell.num 1, Cell.num 2] },
         { name := "B", dtype := Dtype.object, cells := [Cell.str ("p"), Cell.na] },
         { name := "C", dtype := Dtype.object, cells := [Cell.na, Cell.na] }]
        [(("drop_col"), [1]), (("mode"), [2])] =
      some [{ name := "B", dtype := Dtype.object, cells := [Cell.str ("p"), Cell.str ("p")] },
            { name := "C", dtype := Dtype.object, cells := [Cell.na, Cell.na] }] := by
  have h := missing_apply_ids_prebatch
    [{ name := "A", dtype := Dtype.numeric, cells := [Cell.num 1, Cell.num 2] },
     { name := "B", dtype := Dtype.object, cells := [Cell.str ("p"), Cell.na] },
     { name := "C", dtype := Dtype.object, cells := [Cell.na, Cell.na] }]
    1 2 (by decide) (by decide) (by decide) (by decide) (by decide) (by decide)
  exact h.trans (by decide)

/-! The missing-values suggestion endpoint (`backend.api_missing_suggestions`). -/

/-- Decides `abs(skew) > 1` for the pandas bias-corrected sample skewness
`G1 = sqrt(n*(n-1))/(n-2) * m3/m2^(3/2)` (central moments over n) without
leaving ℚ: for `m2 > 0`, `|G1| > 1  ↔  n*(n-1)*m3^2 > (n-2)^2*m2^3`.
For `n < 3` or zero variance pandas yields NaN, whose comparison with 1 is
False — both cases return `false` here. -/
def absSkewGt1 (xs : List ℚ) : Bool :=
  let n := xs.length
  if n < 3 then false
  else
    let nq : ℚ := (n : ℚ)
    let mu := (xs.foldl (fun a b => a + b) 0) / nq
    let m2 := (xs.foldl (fun a b => a + (b - mu) ^ 2) 0) / nq
    let m3 := (xs.foldl (fun a b => a + (b - mu) ^ 3) 0) / nq
    if m2 = 0 then false
    else decide (nq * (nq - 1) * m3 ^ 2 > (nq - 2) ^ 2 * m2 ^ 3)

/-- The per-column rule of `api_missing_suggestions`: drop above 50% missing,
mode for object/category dtype, else median when `abs(skew) > 1`, else mean. -/
def suggestAction (c : Col) (pct : ℚ) : String :=
  if pct > 50 then "drop_col"
  else if c.dtype = Dtype.object then "mode"
  else if absSkewGt1 (numsOf c.cells) then "median" else "mean"

/-- Embeds `backend.api_missing_suggestions`: walk the descriptor rows with
`percentage_missing > 0`, look each column up by name for its dtype and skew,
and record the pair (id, suggested action); the value dict's `column` and
`missing_pct` fields are projections of data already present here. -/
def api_missing_suggestions (df : Df) : List (ℕ × String) :=
  (get_df_info df).filterMap (fun d =>
    if d.percentage_missing > (0 : ℚ) then
      match dfFind df d.column_name with
      | some c => some (d.id, suggestAction c d.percentage_missing)
      | none => none
    else none)

/-- The descriptor table has one row per column. -/
theorem get_df_info_length (df : Df) : (get_df_info df).length = df.length := by
  simp [get_df_info]

/-- The k-th descriptor row describes the k-th column and carries id k+1. -/
theorem get_df_info_getElem (df : Df) (k : ℕ) (hk : k < (get_df_info df).length) :
    (get_df_info df)[k] =
      { id := k + 1
        column_name := (df.getD k defaultCol).name
        dtype := (df.getD k defaultCol).dtype
        percentage_unique :=
          round2 (((nuniqueC (df.getD k defaultCol).cells : ℚ) / (nRows df : ℚ)) * 100)
        percentage_missing :=
          round2 (((countNa (df.getD k defaultCol).cells : ℚ) / (nRows df : ℚ)) * 100) } := by
  have hk2 : k < df.length := by
    rw [← get_df_info_length df]
    exact hk
  have hkz : k < ((List.range' 1 df.length).zip df).length := by
    simpa [List.length_zip, List.length_range'] using hk2
  rw [List.getD_eq_getElem df defaultCol hk2]
  simp [get_df_info, List.getElem_map, List.getElem_zip, List.getElem_range',
    Nat.add_comm]

/-- C4: for every column, writing pct for its computed (rounded) missing
percentage — if pct > 0 the suggestion map contains (id, action) where the
action follows the rule: `drop_col` when pct > 50 regardless of dtype or
skew, else `mode` for a categorical column, else `median` exactly when the
absolute skew of the non-missing values exceeds 1 and `mean` otherwise;
and a column with pct = 0 never appears in the suggestion map. -/
theorem missing_suggestion_rule (df : Df) (i : ℕ) (c : Col)
    (hnd : (names df).Nodup)
    (hi : i < df.length)
    (hget : df.getD i defaultCol = c) :
    (0 < round2 (((countNa c.cells : ℚ) / (nRows df : ℚ)) * 100) →
      (i + 1, suggestAction c (round2 (((countNa c.cells : ℚ) / (nRows df : ℚ)) * 100))) ∈
        api_missing_suggestions df)
    ∧ (round2 (((countNa c.cells : ℚ) / (nRows df : ℚ)) * 100) = 0 →
        ∀ a, (i + 1, a) ∉ api_missing_suggestions df)
    ∧ (50 < round2 (((countNa c.cells : ℚ) / (nRows df : ℚ)) * 100) →
        suggestAction c (round2 (((countNa c.cells : ℚ) / (nRows df : ℚ)) * 100)) =
          "drop_col")
    ∧ (¬ 50 < round2 (((countNa c.cells : ℚ) / (nRows df : ℚ)) * 100) →
        c.dtype = Dtype.object →
        suggestAction c (round2 (((countNa c.cells : ℚ) / (nRows df : ℚ)) * 100)) = "mode")
    ∧ (¬ 50 < round2 (((countNa c.cells : ℚ) / (nRows df : ℚ)) * 100) →
        c.dtype = Dtype.numeric →
        suggestAction c (round2 (((countNa c.cells : ℚ) / (nRows df : ℚ)) * 100)) =
          (if absSkewGt1 (numsOf c.cells) then ("median") else ("mean"))) := by
  have hmem : c ∈ df := by
    rw [← hget]
    exact getD_mem_of_lt df i hi
  have hfind : dfFind df c.name = some c := dfFind_eq_some_of_mem df c hnd hmem
  have hlen : i < (get_df_info df).length := by
    rw [get_df_info_length df]
    exact hi
  have hrow : (get_df_info df)[i] =
      { id := i + 1
        column_name := c.name
        dtype := c.dtype
        percentage_unique := round2 (((nuniqueC c.cells : ℚ) / (nRows df : ℚ)) * 100)
        percentage_missing := round2 (((countNa c.cells : ℚ) / (nRows df : ℚ)) * 100) } := by
    rw [get_df_info_getElem df i hlen, hget]
  refine ⟨?_, ?_, ?_, ?_, ?_⟩
  · intro hpos
    rw [api_missing_suggestions, List.mem_filterMap]
    refine ⟨(get_df_info df)[i], List.getElem_mem hlen, ?_⟩
    rw [hrow]
    simp [hfind, hpos]
  · intro hzero a hmemx
    rw [api_missing_suggestions, List.mem_filterMap] at hmemx
    obtain ⟨d, hd, hde⟩ := hmemx
    by_cases hpm : d.percentage_missing > 0
    · rw [if_pos hpm] at hde
      have hdid : d.id = i + 1 := by
        cases hfd : dfFind df d.column_name with
        | none =>
          rw [hfd] at hde
          simp at hde
        | some c2 =>
          rw [hfd] at hde
          injection hde with hde2
          exact congrArg Prod.fst hde2
      obtain ⟨k, hkl, hkd⟩ := List.mem_iff_getElem.mp hd
      have hkl2 : k < df.length := by
        rw [← get_df_info_length df]
        exact hkl
      have hkid : d.id = k + 1 := by
        rw [← hkd, get_df_info_getElem df k hkl]
      have hki : k = i := by omega
      subst hki
      have hdd : d = (get_df_info df)[k] := hkd.symm
      rw [hrow] at hdd
      rw [hdd] at hpm
      simp [hzero] at hpm
    · rw [if_neg hpm] at hde
      simp at hde
  · intro h50
    rw [suggestAction, if_pos h50]
  · intro h50 hobj
    rw [suggestAction, if_neg h50, if_pos hobj]
  · intro h50 hnum
    have hobj : ¬ c.dtype = Dtype.object := by
      rw [hnum]
      intro hx
      cases hx
    rw [suggestAction, if_neg h50, if_neg hobj]

/-- Concrete one-column dataframe for the C4 witness: 3 of 5 cells missing. -/
def wcol4 : Col :=
  { name := "A", dtype := Dtype.numeric,
    cells := [Cell.num 1, Cell.num 2, Cell.na, Cell.na, Cell.na] }

/-- C4 witness dataframe (single 60%-missing numeric column). -/
def wdf4 : Df := [wcol4]

/-- C4 witness: a numeric column with 3 of 5 cells missing (60% > 50) is
suggested `drop_col` and appears in the suggestion map. -/
theorem missing_suggestion_rule_witness :
    (1, ("drop_col")) ∈ api_missing_suggestions wdf4 := by
  have h := missing_suggestion_rule wdf4 0 wcol4 (by decide) (by decide) (by decide)
  have h2 := h.1 (by decide)
  have h3 : ((0 + 1 : ℕ),
      suggestAction wcol4 (round2 (((countNa wcol4.cells : ℚ) / (nRows wdf4 : ℚ)) * 100))) =
      ((1 : ℕ), ("drop_col")) := by decide
  rw [h3] at h2
  exact h2

/-! Coverage resolution for the missing-values flow
(`missing_values.handle_missing_values`, lines 105–110 and 209–216). -/

/-- The union of all id sets across the actions of a plan
(`covered_ids.update(ids)` over `user_plan.values()`). -/
def coveredIds (plan : List (String × List ℕ)) : List ℕ :=
  (plan.map (fun e => e.2)).flatten

/-- `uncovered_ids = all_missing_ids - covered_ids`. -/
def uncoveredIds (eligible : List ℕ) (plan : List (String × List ℕ)) : List ℕ :=
  eligible.filter (fun i => !(decide (i ∈ coveredIds plan)))

/-- `global_suggestion.get(col_id, "median")`-style lookup with default. -/
def lookupD (sugg : List (ℕ × String)) (i : ℕ) (d : String) : String :=
  match sugg.find? (fun e => e.1 == i) with
  | some e => e.2
  | none => d

/-- `temp_plan.setdefault(act, set()).add(col_id)`: extend the id set of an
existing action entry, or append a fresh entry. -/
def insertPlan (p : List (String × List ℕ)) (a : String) (i : ℕ) :
    List (String × List ℕ) :=
  if p.any (fun e => e.1 == a) then
    p.map (fun e => if e.1 = a then (e.1, e.2 ++ [i]) else e)
  else p ++ [(a, [i])]

/-- The temp plan built by the "apply suggestions" choice (choice 2): each
uncovered id grouped under its suggested action, defaulting to `median`. -/
def applySuggestionsPlan (uncovered : List ℕ) (sugg : List (ℕ × String)) :
    List (String × List ℕ) :=
  uncovered.foldl (fun p i => insertPlan p (lookupD sugg i ("median")) i) []

/-- Membership in the covered set of a plan. -/
theorem mem_coveredIds (p : List (String × List ℕ)) (j : ℕ) :
    j ∈ coveredIds p ↔ ∃ e ∈ p, j ∈ e.2 := by
  simp only [coveredIds, List.mem_flatten, List.mem_map]
  constructor
  · rintro ⟨l, ⟨e, he, rfl⟩, hj⟩
    exact ⟨e, he, hj⟩
  · rintro ⟨e, he, hj⟩
    exact ⟨e.2, ⟨e, he, rfl⟩, hj⟩

/-- Inserting id i under an action adds exactly i to the covered set. -/
theorem mem_coveredIds_insertPlan (p : List (String × List ℕ)) (a : String)
    (i j : ℕ) :
    j ∈ coveredIds (insertPlan p a i) ↔ j = i ∨ j ∈ coveredIds p := by
  unfold insertPlan
  by_cases h : p.any (fun e => e.1 == a)
  · rw [if_pos h]
    rw [mem_coveredIds, mem_coveredIds]
    constructor
    · rintro ⟨e, he, hj⟩
      obtain ⟨e0, he0, rfl⟩ := List.mem_map.mp he
      by_cases ha : e0.1 = a
      · rw [if_pos ha] at hj
        rcases List.mem_append.mp hj with h2 | h2
        · exact Or.inr ⟨e0, he0, h2⟩
        · simp at h2
          exact Or.inl h2
      · rw [if_neg ha] at hj
        exact Or.inr ⟨e0, he0, hj⟩
    · rintro (rfl | ⟨e0, he0, hj⟩)
      · obtain ⟨ea, hea, haa⟩ := List.any_eq_true.mp h
        have haa2 : ea.1 = a := eq_of_beq haa
        refine ⟨(ea.1, ea.2 ++ [j]), ?_, by simp⟩
        exact List.mem_map.mpr ⟨ea, hea, by rw [if_pos haa2]⟩
      · by_cases ha : e0.1 = a
        · refine ⟨(e0.1, e0.2 ++ [i]), ?_, by simp [hj]⟩
          exact List.mem_map.mpr ⟨e0, he0, by rw [if_pos ha]⟩
        · refine ⟨e0, ?_, hj⟩
          exact List.mem_map.mpr ⟨e0, he0, by rw [if_neg ha]⟩
  · rw [if_neg h]
    rw [mem_coveredIds, mem_coveredIds]
    constructor
    · rintro ⟨e, he, hj⟩
      rcases List.mem_append.mp he with h2 | h2
      · exact Or.inr ⟨e, h2, hj⟩
      · simp at h2
        subst h2
        simp at hj
        exact Or.inl hj
    · rintro (rfl | ⟨e0, he0, hj⟩)
      · exact ⟨(a, [j]), by simp, by simp⟩
      · exact ⟨e0, List.mem_append_left _ he0, hj⟩

/-- Ids already passed to the suggestion fold stay covered, and every id of
the list gets covered. -/
theorem covered_suggestions_foldl (sugg : List (ℕ × String)) :
    ∀ (u : List ℕ) (p0 : List (String × List ℕ)) (i : ℕ),
      i ∈ u ∨ i ∈ coveredIds p0 →
      i ∈ coveredIds
        (u.foldl (fun p j => insertPlan p (lookupD sugg j ("median")) j) p0)
  | [], p0, i, hi => by
      rcases hi with h | h
      · simp at h
      · simpa using h
  | k :: u, p0, i, hi => by
      rcases hi with h | h
      · rcases List.mem_cons.mp h with rfl | h2
        · exact covered_suggestions_foldl sugg u _ i
            (Or.inr ((mem_coveredIds_insertPlan _ _ _ _).mpr (Or.inl rfl)))
        · exact covered_suggestions_foldl sugg u _ i (Or.inl h2)
      · exact covered_suggestions_foldl sugg u _ i
          (Or.inr ((mem_coveredIds_insertPlan _ _ _ _).mpr (Or.inr h)))

/-- Every id recorded anywhere in the suggestions plan carries the action the
suggestion map assigns it (default `median`). -/
theorem applySuggestionsPlan_assigns (u : List ℕ) (sugg : List (ℕ × String)) :
    ∀ e ∈ applySuggestionsPlan u sugg, ∀ x ∈ e.2,
      e.1 = lookupD sugg x ("median") := by
  suffices h : ∀ (p0 : List (String × List ℕ)),
      (∀ e ∈ p0, ∀ x ∈ e.2, e.1 = lookupD sugg x ("median")) →
      ∀ e ∈ u.foldl (fun p i => insertPlan p (lookupD sugg i ("median")) i) p0,
        ∀ x ∈ e.2, e.1 = lookupD sugg x ("median") by
    exact h [] (by simp)
  induction u with
  | nil => intro p0 hp0; simpa using hp0
  | cons k u ih =>
    intro p0 hp0
    apply ih
    intro e he x hx
    simp only [insertPlan] at he
    by_cases hany : p0.any (fun e2 => e2.1 == lookupD sugg k ("median"))
    · rw [if_pos hany] at he
      obtain ⟨e0, he0, rfl⟩ := List.mem_map.mp he
      by_cases ha : e0.1 = lookupD sugg k ("median")
      · rw [if_pos ha] at hx ⊢
        rcases List.mem_append.mp hx with h2 | h2
        · exact hp0 e0 he0 x h2
        · simp at h2
          subst h2
          exact ha
      · rw [if_neg ha] at hx ⊢
        exact hp0 e0 he0 x hx
    · rw [if_neg hany] at he
      rcases List.mem_append.mp he with h2 | h2
      · exact hp0 e h2 x hx
      · simp at h2
        subst h2
        simp at hx
        subst hx
        rfl

/-- C2: `uncovered_ids` is the eligible set minus the union of the plan's id
sets — with eligible ids 1,2,3 and a plan covering only id 1 it is exactly
2 and 3; the "apply suggestions" choice assigns every uncovered id the
action from the suggestion map (falling back to `median`); and the plan
extended by the suggestions plan leaves the uncovered set empty. -/
theorem resolver_uncovered_and_apply_suggestions (eligible : List ℕ)
    (plan : List (String × List ℕ)) (sugg : List (ℕ × String)) :
    (∀ i, i ∈ uncoveredIds eligible plan ↔
      i ∈ eligible ∧ ¬ i ∈ coveredIds plan)
    ∧ (∀ e ∈ applySuggestionsPlan (uncoveredIds eligible plan) sugg, ∀ x ∈ e.2,
        e.1 = lookupD sugg x ("median"))
    ∧ uncoveredIds eligible
        (plan ++ applySuggestionsPlan (uncoveredIds eligible plan) sugg) = []
    ∧ uncoveredIds [1, 2, 3] [(("mean"), [1])] = [2, 3]
    ∧ uncoveredIds [1, 2, 3]
        ([(("mean"), [1])] ++
          applySuggestionsPlan (uncoveredIds [1, 2, 3] [(("mean"), [1])])
            [(2, ("mode"))]) = [] := by
  refine ⟨?_, applySuggestionsPlan_assigns _ sugg, ?_, by decide, by decide⟩
  · intro i
    simp [uncoveredIds, List.mem_filter]
  · rw [uncoveredIds, List.filter_eq_nil_iff]
    intro i hi
    simp only [Bool.not_eq_true, Bool.not_eq_eq_eq_not, Bool.not_true,
      decide_eq_false_iff_not, Decidable.not_not]
    have hcov : i ∈ coveredIds plan ∨ i ∈ coveredIds
        (applySuggestionsPlan (uncoveredIds eligible plan) sugg) := by
      by_cases hc : i ∈ coveredIds plan
      · exact Or.inl hc
      · refine Or.inr ?_
        apply covered_suggestions_foldl sugg (uncoveredIds eligible plan) [] i
        refine Or.inl ?_
        rw [uncoveredIds, List.mem_filter]
        exact ⟨hi, by simpa using hc⟩
    rw [mem_coveredIds]
    rcases hcov with hc | hc
    · obtain ⟨e, he, hj⟩ := (mem_coveredIds plan i).mp hc
      exact ⟨e, List.mem_append_left _ he, hj⟩
    · obtain ⟨e, he, hj⟩ := (mem_coveredIds _ i).mp hc
      exact ⟨e, List.mem_append_right _ he, hj⟩

/-! Outlier diagnostics and apply paths (`outliers.py` and
`backend.api_outliers_apply`). -/

/-- Rows outside the bounds: `(df[col] < lower) | (df[col] > upper)`;
NaN comparisons are False, so missing cells are never counted. -/
def outlierCount (cs : List Cell) (lo hi : ℚ) : ℕ :=
  (cs.filter (fun x => match x with
    | Cell.num q => decide (q < lo ∨ hi < q)
    | _ => false)).length

/-- IQR bounds `[Q1 - 1.5*IQR, Q3 + 1.5*IQR]` with `IQR = Q3 - Q1`; `none`
models the NaN bounds of a column with no numeric values. -/
def iqrBounds (xs : List ℚ) : Option (ℚ × ℚ) :=
  match quantileQ xs (1 / 4), quantileQ xs (3 / 4) with
  | some q1, some q3 => some (q1 - 3 / 2 * (q3 - q1), q3 + 3 / 2 * (q3 - q1))
  | _, _ => none

/-- Embeds the per-column diagnostic of `detect_and_handle_outliers`:
columns with zero rows outside the IQR bounds are excluded; otherwise the
suggestion is `remove_rows` when the rounded outlier percentage exceeds 10
and `cap` otherwise.  (The source's dead `"rain" in col_name` branch also
yields `cap` and is collapsed here.) -/
def outlierSuggestion (cs : List Cell) (nrows : ℕ) : Option String :=
  match iqrBounds (numsOf cs) with
  | none => none
  | some b =>
    let cnt := outlierCount cs b.1 b.2
    if cnt = 0 then none
    else
      some (if round2 (((cnt : ℚ) / (nrows : ℚ)) * 100) > 10
        then "remove_rows" else "cap")

/-- C5: the outlier suggestion uses the IQR bounds, excludes columns with
zero rows outside them, and suggests `remove_rows` exactly when the outlier
percentage exceeds 10, `cap` otherwise. -/
theorem outlier_suggestion_rule (cs : List Cell) (nrows : ℕ) (lo hi : ℚ)
    (hb : iqrBounds (numsOf cs) = some (lo, hi)) :
    (outlierCount cs lo hi = 0 → outlierSuggestion cs nrows = none)
    ∧ (0 < outlierCount cs lo hi →
        outlierSuggestion cs nrows =
          some (if 10 < round2 (((outlierCount cs lo hi : ℚ) / (nrows : ℚ)) * 100)
            then ("remove_rows") else ("cap"))) := by
  constructor
  · intro h0
    simp [outlierSuggestion, hb, h0]
  · intro hpos
    have hne : ¬ (outlierCount cs lo hi = 0) := by omega
    simp [outlierSuggestion, hb, hne]

/-- The column `[1, 2, 3, 4, 5, 100]` of the C5 witness. -/
def exOutCol : List Cell :=
  [Cell.num 1, Cell.num 2, Cell.num 3, Cell.num 4, Cell.num 5, Cell.num 100]

/-- C5 witness: for `[1,2,3,4,5,100]` the IQR bounds are `[-1.5, 8.5]`
(excluding 100), the outlier count is 1 of 6 rows (16.67% > 10), and the
suggested action is `remove_rows`. -/
theorem outlier_suggestion_rule_witness :
    iqrBounds (numsOf exOutCol) = some (-(3 / 2), 17 / 2)
    ∧ outlierCount exOutCol (-(3 / 2)) (17 / 2) = 1
    ∧ round2 (((1 : ℚ) / (6 : ℚ)) * 100) = 1667 / 100
    ∧ outlierSuggestion exOutCol 6 = some ("remove_rows") := by
  refine ⟨by decide, by decide, by decide, ?_⟩
  have h := (outlier_suggestion_rule exOutCol 6 (-(3 / 2)) (17 / 2) (by decide)).2
    (by decide)
  exact h.trans (by decide)

/-- Clip numeric cells to bounds (pandas `Series.clip(lower, upper)`);
`none` bounds (NaN) leave the series unchanged, missing cells stay missing. -/
def clipCells (bounds : Option (ℚ × ℚ)) (cs : List Cell) : List Cell :=
  match bounds with
  | none => cs
  | some b => cs.map (fun x => match x with
      | Cell.num q => Cell.num (max b.1 (min q b.2))
      | y => y)

/-- Row mask `(series >= lower) & (series <= upper)`; NaN compares False. -/
def maskOf (cs : List Cell) (lo hi : ℚ) : List Bool :=
  cs.map (fun x => match x with
    | Cell.num q => decide (lo ≤ q ∧ q ≤ hi)
    | _ => false)

/-- Mask under optional (possibly NaN) bounds: NaN bounds keep no row. -/
def maskOfB (bounds : Option (ℚ × ℚ)) (cs : List Cell) : List Bool :=
  match bounds with
  | some b => maskOf cs b.1 b.2
  | none => cs.map (fun _ => false)

/-- Keep the rows selected by the mask in every column (`df = df[mask]`). -/
def filterRows (df : Df) (mask : List Bool) : Df :=
  df.map (fun c =>
    { c with
      cells := (c.cells.zip mask).filterMap (fun p => if p.2 then some p.1 else none) })

/-- Embeds `backend.api_outliers_apply`: ids are resolved against the column
list captured at batch start; out-of-range ids and non-numeric columns are
skipped; for each entry Q1/Q3/IQR bounds are computed from the CURRENT
dataframe; `cap` clips the column, `remove_rows` filters the rows. -/
def api_outliers_apply (df : Df) (plan : List (String × List ℕ)) : Df :=
  let cols := names df
  (flattenPlan plan).foldl (fun d e =>
    if 1 ≤ e.2 ∧ e.2 ≤ cols.length then
      match dfFind d (cols.getD (e.2 - 1) "") with
      | none => d
      | some c =>
        if c.dtype = Dtype.numeric then
          if e.1 = "cap" then
            mapColCells d (cols.getD (e.2 - 1) "")
              (clipCells (iqrBounds (numsOf c.cells)))
          else if e.1 = "remove_rows" then
            filterRows d (maskOfB (iqrBounds (numsOf c.cells)) c.cells)
          else d
        else d
    else d) df

/-- Column A of the C6 dataset: nine zeros and the outlier 1000. -/
def cexColA : Col :=
  { name := "A", dtype := Dtype.numeric,
    cells := [Cell.num 0, Cell.num 0, Cell.num 0, Cell.num 0, Cell.num 0,
      Cell.num 0, Cell.num 0, Cell.num 0, Cell.num 0, Cell.num 1000] }

/-- Column B of the C6 dataset: its row paired with A's outlier holds 1000. -/
def cexColB : Col :=
  { name := "B", dtype := Dtype.numeric,
    cells := [Cell.num 1, Cell.num 2, Cell.num 3, Cell.num 4, Cell.num 5,
      Cell.num 6, Cell.num 7, Cell.num 8, Cell.num 20, Cell.num 1000] }

/-- The two-column C6 dataset. -/
def cexDf : Df := [cexColA, cexColB]

/-- Cells of the column named `n` (for stating results). -/
def colCells (df : Df) (n : String) : Option (List Cell) :=
  (dfFind df n).map (fun c => c.cells)

/-- C6 counterexample: in the HTTP apply endpoint, `remove_rows` on column A
(dropping the row where B = 1000) followed by `cap` on column B clips B's
surviving value 20 to 13 — the bounds recomputed after the removal — while
clipping to B's diagnostic-time bounds `[-3.5, 14.5]` would give 14.5.  The
bounds are therefore recomputed after prior mutations in the same batch,
contradicting the claim for this apply path. -/
theorem cap_bounds_recomputed_counterexample :
    colCells (api_outliers_apply cexDf [(("remove_rows"), [1]), (("cap"), [2])]) ("B") =
      some [Cell.num 1, Cell.num 2, Cell.num 3, Cell.num 4, Cell.num 5,
        Cell.num 6, Cell.num 7, Cell.num 8, Cell.num 13]
    ∧ colCells (api_outliers_apply cexDf [(("remove_rows"), [1])]) ("B") =
      some [Cell.num 1, Cell.num 2, Cell.num 3, Cell.num 4, Cell.num 5,
        Cell.num 6, Cell.num 7, Cell.num 8, Cell.num 20]
    ∧ iqrBounds (numsOf cexColB.cells) = some (-(7 / 2), 29 / 2)
    ∧ clipCells (some (-(7 / 2), 29 / 2))
        [Cell.num 1, Cell.num 2, Cell.num 3, Cell.num 4, Cell.num 5,
          Cell.num 6, Cell.num 7, Cell.num 8, Cell.num 20] =
      [Cell.num 1, Cell.num 2, Cell.num 3, Cell.num 4, Cell.num 5,
        Cell.num 6, Cell.num 7, Cell.num 8, Cell.num (29 / 2)]
    ∧ (Cell.num 13 : Cell) ≠ Cell.num (29 / 2) := by
  refine ⟨by decide, by decide, by decide, by decide, by decide⟩

/-- Diagnostic row of `outlier_cols_info`: id, column name, stored bounds. -/
structure OutlierRec where
  id : ℕ
  column_name : String
  lower : ℚ
  upper : ℚ
deriving DecidableEq, Repr

/-- Clip the named column to explicitly given (stored) bounds. -/
def capColByName (df : Df) (n : String) (lo hi : ℚ) : Df :=
  mapColCells df n (clipCells (some (lo, hi)))

/-- Remove the rows whose value in the named column falls outside the given
(stored) bounds. -/
def removeRowsByName (df : Df) (n : String) (lo hi : ℚ) : Df :=
  match dfFind df n with
  | none => df
  | some c => filterRows df (maskOf c.cells lo hi)

/-- Embeds the CLI `apply_outlier_logic`: per plan entry the ids are filtered
to the target set, the column name and the DIAGNOSTIC-TIME bounds are read
from `outlier_cols_info` (here `info`, which merges the id→name and
id→bounds tables the source keeps side by side), and `cap`/`remove_rows`
use those stored bounds; `none` and unknown actions are no-ops. -/
def apply_outlier_logic (info : List OutlierRec) (targets : List ℕ)
    (plan : List (String × List ℕ)) (df : Df) : Df :=
  plan.foldl (fun d e =>
    (e.2.filter (fun cid => decide (cid ∈ targets))).foldl (fun d2 cid =>
      match info.find? (fun r => r.id == cid) with
      | none => d2
      | some r =>
        if e.1 = "cap" then capColByName d2 r.column_name r.lower r.upper
        else if e.1 = "remove_rows" then
          removeRowsByName d2 r.column_name r.lower r.upper
        else d2) d) df

/-- C6 amended: in the CLI apply path the `cap` action clips to the bounds
stored in the diagnostic table, not to bounds recomputed from the mutated
dataframe: removing rows via column i and then capping column j equals
capping with j's stored diagnostic-time bounds, whatever the removal did. -/
theorem cli_cap_uses_diagnostic_bounds (df : Df) (info : List OutlierRec)
    (targets : List ℕ) (i j : ℕ) (rA rB : OutlierRec)
    (hA : info.find? (fun r => r.id == i) = some rA)
    (hB : info.find? (fun r => r.id == j) = some rB)
    (hiT : i ∈ targets) (hjT : j ∈ targets) :
    apply_outlier_logic info targets [(("remove_rows"), [i]), (("cap"), [j])] df =
      capColByName (removeRowsByName df rA.column_name rA.lower rA.upper)
        rB.column_name rB.lower rB.upper := by
  have hfi : (([i] : List ℕ).filter (fun cid => decide (cid ∈ targets))) = [i] := by
    simp [hiT]
  have hfj : (([j] : List ℕ).filter (fun cid => decide (cid ∈ targets))) = [j] := by
    simp [hjT]
  simp only [apply_outlier_logic, List.foldl_cons, List.foldl_nil, hfi, hfj, hA, hB]
  simp

/-- Diagnostic table computed from `cexDf` at diagnostic time: A's bounds
are `[0, 0]`, B's are `[-3.5, 14.5]`. -/
def cexInfo : List OutlierRec :=
  [{ id := 1, column_name := "A", lower := 0, upper := 0 },
   { id := 2, column_name := "B", lower := -(7 / 2), upper := 29 / 2 }]

/-- C6 amended witness: on the C6 dataset the CLI path caps B's surviving 20
to the diagnostic-time upper bound 14.5 (where the HTTP path produced 13),
and the stored bounds agree with the diagnostic computation on `cexDf`. -/
theorem cli_cap_uses_diagnostic_bounds_witness :
    apply_outlier_logic cexInfo [1, 2]
        [(("remove_rows"), [1]), (("cap"), [2])] cexDf =
      [{ name := "A", dtype := Dtype.numeric,
         cells := [Cell.num 0, Cell.num 0, Cell.num 0, Cell.num 0, Cell.num 0,
           Cell.num 0, Cell.num 0, Cell.num 0, Cell.num 0] },
       { name := "B", dtype := Dtype.numeric,
         cells := [Cell.num 1, Cell.num 2, Cell.num 3, Cell.num 4, Cell.num 5,
           Cell.num 6, Cell.num 7, Cell.num 8, Cell.num (29 / 2)] }]
    ∧ iqrBounds (numsOf cexColA.cells) = some (0, 0)
    ∧ iqrBounds (numsOf cexColB.cells) = some (-(7 / 2), 29 / 2) := by
  refine ⟨?_, by decide, by decide⟩
  have h := cli_cap_uses_diagnostic_bounds cexDf cexInfo [1, 2] 1 2
    { id := 1, column_name := "A", lower := 0, upper := 0 }
    { id := 2, column_name := "B", lower := -(7 / 2), upper := 29 / 2 }
    (by decide) (by decide) (by decide) (by decide)
  exact h.trans (by decide)

/-! Correlation-driven pruning (`correlation_utils.handle_high_correlation`
and `backend.api_corr`). -/

/-- Pairwise-complete observations of two columns: rows where both cells are
numeric, the rows pandas `corr()` uses for each pair. -/
def pairedVals (xs ys : List Cell) : List (ℚ × ℚ) :=
  (xs.zip ys).filterMap (fun p => match p.1, p.2 with
    | Cell.num a, Cell.num b => some (a, b)
    | _, _ => none)

/-- Sum of a list of rationals. -/
def qsum (l : List ℚ) : ℚ := l.foldl (fun a b => a + b) 0

/-- Centered cross-product sum `Σ (x - mean x) * (y - mean y)` over the
paired observations. -/
def covSum (ps : List (ℚ × ℚ)) : ℚ :=
  let n : ℚ := (ps.length : ℚ)
  let mx := qsum (ps.map (fun p => p.1)) / n
  let my := qsum (ps.map (fun p => p.2)) / n
  qsum (ps.map (fun p => (p.1 - mx) * (p.2 - my)))

/-- Decides `abs(corr(x, y)) > θ` for the Pearson correlation pandas
computes, without leaving ℚ: the `1/(n-1)` factors cancel in the ratio, and
for `θ ≥ 0` with positive variances
`|corr| > θ  ↔  covSum² > θ² · varSumₓ · varSumᵧ`.  A NaN correlation
(zero variance or fewer than two complete pairs) compares False in the
source; here both sides collapse to `0 < 0`, likewise false. -/
def absCorrGt (xs ys : List Cell) (θ : ℚ) : Bool :=
  let ps := pairedVals xs ys
  let sxy := covSum ps
  let sxx := covSum (ps.map (fun p => (p.1, p.1)))
  let syy := covSum (ps.map (fun p => (p.2, p.2)))
  decide (θ * θ * sxx * syy < sxy * sxy)

/-- The numeric columns (`select_dtypes(include=['float64', 'int64'])`). -/
def numericCols (df : Df) : Df := df.filter (fun c => c.dtype == Dtype.numeric)

/-- Embeds the flagged-set computation shared by `handle_high_correlation`
(lines 56–73) and `api_corr` (lines 373–375): absolute correlation matrix
over the numeric columns, upper triangle only (`k=1`), and column j is
flagged exactly when some entry of its upper-triangle column slice — a pair
against an EARLIER column i < j — exceeds the threshold. -/
def highCorrFlags (df : Df) (θ : ℚ) : List String :=
  let nums := numericCols df
  ((List.range nums.length).filter (fun j =>
    (List.range j).any (fun i =>
      absCorrGt (nums.getD i defaultCol).cells (nums.getD j defaultCol).cells θ))).map
    (fun j => (nums.getD j defaultCol).name)

/-- First duplicate column for the C1 counterexample. -/
def dupColA : Col :=
  { name := "A", dtype := Dtype.numeric,
    cells := [Cell.num 1, Cell.num 2, Cell.num 3] }

/-- Second duplicate column for the C1 counterexample. -/
def dupColB : Col :=
  { name := "B", dtype := Dtype.numeric,
    cells := [Cell.num 1, Cell.num 2, Cell.num 3] }

/-- Two exactly collinear numeric columns (correlation coefficient 1.0). -/
def dupDf : Df := [dupColA, dupColB]

/-- C1 counterexample: with two exact linear duplicates and threshold 0.90,
the pair exceeds the threshold, yet the flagged set is only the LATER
column B — the earlier member A of the pair is not flagged, so the claim
that both members appear in the flagged set is false. -/
theorem corr_flags_both_counterexample :
    absCorrGt dupColA.cells dupColB.cells (9 / 10) = true
    ∧ highCorrFlags dupDf (9 / 10) = [("B")]
    ∧ ¬ (("A") ∈ highCorrFlags dupDf (9 / 10) ∧
      ("B") ∈ highCorrFlags dupDf (9 / 10)) := by
  refine ⟨by decide, by decide, by decide⟩

/-- C1 amended: for every pair of numeric columns i < j whose absolute
correlation exceeds the threshold, the suggestion flags the LATER column j
with action `drop` (`drop` is what the callers assign to every flagged
column); the earlier member is not flagged on account of that pair. -/
theorem corr_flags_later_member (df : Df) (θ : ℚ) (i j : ℕ)
    (hij : i < j) (hj : j < (numericCols df).length)
    (hcorr : absCorrGt ((numericCols df).getD i defaultCol).cells
      ((numericCols df).getD j defaultCol).cells θ = true) :
    ((numericCols df).getD j defaultCol).name ∈ highCorrFlags df θ := by
  unfold highCorrFlags
  apply List.mem_map.mpr
  refine ⟨j, ?_, rfl⟩
  rw [List.mem_filter]
  refine ⟨List.mem_range.mpr hj, ?_⟩
  rw [List.any_eq_true]
  exact ⟨i, List.mem_range.mpr hij, hcorr⟩

/-- C1 amended witness: on the duplicate-column dataset with threshold 0.90
the later column B is flagged. -/
theorem corr_flags_later_member_witness :
    ("B") ∈ highCorrFlags dupDf (9 / 10) := by
  have h := corr_flags_later_member dupDf (9 / 10) 0 1 (by decide) (by decide)
    (by decide)
  exact (by decide : ((numericCols dupDf).getD 1 defaultCol).name = ("B")) ▸ h
